import Mathlib

/-!
Verification development for the incident scorecard reporting tool.

The tool fetches incidents from an incident-management API, normalizes them
into typed records, filters to public visibility, groups them by affected
service, resolves scorecards for those services from a service-catalog API,
and assembles a ranked report.

The embedding below models the pure data transformations of the two API
client adapters and the reporting engine.  HTTP responses are modeled as
frozen payload values (already-decoded JSON shaped into typed records);
`datetime.now()` is modeled as an explicit `now : Int` parameter threaded to
every call site that reads the clock.  Python strings are modeled as
`List Char`; Python string truthiness (empty string is falsy) and the
`or`-fallback idiom are modeled explicitly.
-/

/-- Python strings are modeled as lists of characters. -/
abbrev Str := List Char

/-- Truthiness of an optional Python string: `None` and `""` are falsy. -/
def pyTruthy : Option Str → Bool
  | none => false
  | some s => !s.isEmpty

/-- Python's `a or b` on optional strings: returns `a` when truthy, else `b`. -/
def pyOr (a b : Option Str) : Option Str := if pyTruthy a then a else b

/-- Python's `str.lower()` (ASCII case fold suffices for the modeled data). -/
def pyLower (s : Str) : Str := s.map Char.toLower

/-- `startsW pre s` is true when `s` starts with `pre`. -/
def startsW : Str → Str → Bool
  | [], _ => true
  | _ :: _, [] => false
  | a :: pre, b :: s => a == b && startsW pre s

/-- Python's substring test `needle in hay` (contiguous containment). -/
def containsStr : Str → Str → Bool
  | [], needle => needle.isEmpty
  | hay@(_ :: t), needle => startsW needle hay || containsStr t needle

/-! ### Timestamps

The source parses timestamps with `datetime.fromisoformat` after replacing
every `"Z"` with `"+00:00"`.  We model `fromisoformat` (an external standard
library collaborator, not repository code) as an executable acceptor of the
ISO shape `YYYY-MM-DDTHH:MM:SS` with an optional `±HH:MM` offset, mapping an
accepted string to an integer instant.  For valid in-range fields the
encoding is lexicographic in (year, month, day, hour, minute, second) with
second granularity, so chronological order is preserved everywhere except
that months are given a uniform 32-day span (the model accepts a few
calendar-invalid day numbers that CPython would reject; no claim depends on
those strings). -/

/-- Numeric value of a digit character. -/
def dval (c : Char) : Nat := c.toNat - 48

/-- Parse two digit characters as a two-digit number. -/
def d2 (a b : Char) : Option Nat :=
  if a.isDigit && b.isDigit then some (dval a * 10 + dval b) else none

/-- Parse four digit characters as a four-digit number. -/
def d4 (a b c d : Char) : Option Nat :=
  if a.isDigit && b.isDigit && c.isDigit && d.isDigit then
    some (((dval a * 10 + dval b) * 10 + dval c) * 10 + dval d)
  else none

/-- Parse the 19-character naive core `YYYY-MM-DDTHH:MM:SS`. -/
def naiveParts : Str → Option (Nat × Nat × Nat × Nat × Nat × Nat)
  | [y1, y2, y3, y4, '-', m1, m2, '-', a1, a2, 'T', h1, h2, ':', n1, n2, ':', s1, s2] => do
    let y ← d4 y1 y2 y3 y4
    let mo ← d2 m1 m2
    let dd ← d2 a1 a2
    let hh ← d2 h1 h2
    let mi ← d2 n1 n2
    let ss ← d2 s1 s2
    if 1 ≤ mo && mo ≤ 12 && 1 ≤ dd && dd ≤ 31 && hh ≤ 23 && mi ≤ 59 && ss ≤ 59 then
      some (y, mo, dd, hh, mi, ss)
    else none
  | _ => none

/-- Encode parsed date-time fields as an integer instant (seconds). -/
def encodeDT : Nat × Nat × Nat × Nat × Nat × Nat → Int
  | (y, mo, d, h, mi, s) =>
    ((((((y * 13 + mo) * 32 + d) * 24 + h) * 60 + mi) * 60 + s : Nat) : Int)

/-- Parse a 6-character UTC offset `±HH:MM` into signed seconds. -/
def offSecs : Str → Option Int
  | [sg, h1, h2, ':', m1, m2] => do
    let hh ← d2 h1 h2
    let mm ← d2 m1 m2
    if hh ≤ 23 && mm ≤ 59 then
      if sg == '+' then some ((hh * 3600 + mm * 60 : Nat) : Int)
      else if sg == '-' then some (-((hh * 3600 + mm * 60 : Nat) : Int))
      else none
    else none
  | _ => none

/-- Model of `datetime.fromisoformat`: accepts the naive 19-character core,
optionally followed by a `±HH:MM` offset; a trailing `Z` is rejected (the
source pre-replaces it), as in CPython versions predating 3.11. -/
def fromisoformat (s : Str) : Option Int :=
  match naiveParts s with
  | some p => some (encodeDT p)
  | none =>
    match naiveParts (s.take 19), offSecs (s.drop 19) with
    | some p, some o => some (encodeDT p - o)
    | _, _ => none

/-- Model of `s.replace("Z", "+00:00")`: every `'Z'` expands to `"+00:00"`. -/
def replaceZ (s : Str) : Str :=
  s.flatMap (fun c => if c == 'Z' then "+00:00".data else [c])

/-! ### Incident data model (`models.py`) -/

/-- `models.IncidentService`: a service affected by an incident. -/
structure IncidentService where
  id : Str
  name : Str
  summary : Option Str := none
deriving DecidableEq

/-- `models.IncidentSeverity`. -/
structure IncidentSeverity where
  id : Str
  name : Str
  rank : Int
deriving DecidableEq

/-- `models.IncidentStatus`. -/
structure IncidentStatus where
  id : Str
  name : Str
  category : Str
deriving DecidableEq

/-- `models.Incident`: the normalized incident record. Timestamps are the
integer instants produced by `fromisoformat`. -/
structure Incident where
  id : Str
  name : Str
  summary : Option Str := none
  description : Option Str := none
  created_at : Int
  updated_at : Int
  resolved_at : Option Int := none
  severity : IncidentSeverity
  status : IncidentStatus
  services : List IncidentService := []
  visibility : Str
deriving DecidableEq

/-! ### Raw incident payloads

These mirror the dictionary shapes `IncidentIOClient._parse_incident` reads.
A JSON key that is absent is `none`; a present empty dictionary collapses to
the same defaults the source's `.get(..., {})` chains produce.  Null-valued
keys are identified with absent keys (the modeled code paths treat them
alike except for sub-summary fallbacks no claim touches). -/

/-- The `value_catalog_entry` dictionary inside a custom-field value. -/
structure RawCatalogEntry where
  external_id : Option Str := none
  id : Option Str := none
  name : Option Str := none
  title : Option Str := none
  summary : Option Str := none
  description : Option Str := none
deriving DecidableEq

/-- One element of a custom-field entry's `values` array.  `none` models an
absent or empty (falsy) `value_catalog_entry`. -/
structure RawCustomFieldValue where
  value_catalog_entry : Option RawCatalogEntry := none
deriving DecidableEq

/-- One element of `custom_field_entries`; `custom_field_id` models
`entry.get("custom_field", {}).get("id", "")`. -/
structure RawCustomFieldEntry where
  custom_field_id : Option Str := none
  values : List RawCustomFieldValue := []
deriving DecidableEq

/-- The raw `severity` field: a structured object or a bare scalar. -/
inductive RawSeverity where
  | dictV (id : Option Str) (name : Option Str) (rank : Option Int)
  | scalarV (s : Str)
deriving DecidableEq

/-- The raw `incident_status`/`status` field: structured object or scalar. -/
inductive RawStatus where
  | dictV (id : Option Str) (name : Option Str) (category : Option Str)
  | scalarV (s : Str)
deriving DecidableEq

/-- A raw incident dictionary as read by `_parse_incident`. -/
structure RawIncident where
  id : Option Str := none
  name : Option Str := none
  summary : Option Str := none
  description : Option Str := none
  created_at : Option Str := none
  updated_at : Option Str := none
  resolved_at : Option Str := none
  severity : Option RawSeverity := none
  incident_status : Option RawStatus := none
  status : Option RawStatus := none
  custom_field_entries : List RawCustomFieldEntry := []
  visibility : Option Str := none
deriving DecidableEq

/-- One element of the API's `incidents` array.  `malformed` models a
payload element on which `_parse_incident` raises (for example a non-dict
element), which the fetch loop catches, logs, and skips. -/
inductive RawIncidentEntry where
  | well (r : RawIncident)
  | malformed
deriving DecidableEq

/-! ### Incident parsing (`incident_client.py`) -/

/-- Severity normalization from `_parse_incident` (lines 158-172): a dict
yields its fields with `unknown`/`Unknown`/`0` defaults; a scalar becomes
the id (`"unknown"` when falsy) with placeholder name and rank. An absent
key is the empty dict, hence the all-default dict branch. -/
def parse_severity : Option RawSeverity → IncidentSeverity
  | none => { id := "unknown".data, name := "Unknown".data, rank := 0 }
  | some (.dictV i n rk) =>
    { id := i.getD ("unknown".data), name := n.getD ("Unknown".data), rank := rk.getD 0 }
  | some (.scalarV s) =>
    { id := if s.isEmpty then "unknown".data else s, name := "Unknown".data, rank := 0 }

/-- Status normalization from `_parse_incident` (lines 174-188). -/
def parse_status : Option RawStatus → IncidentStatus
  | none => { id := "unknown".data, name := "Unknown".data, category := "unknown".data }
  | some (.dictV i n c) =>
    { id := i.getD ("unknown".data), name := n.getD ("Unknown".data),
      category := c.getD ("unknown".data) }
  | some (.scalarV s) =>
    { id := if s.isEmpty then "unknown".data else s, name := "Unknown".data,
      category := "unknown".data }

/-- Per-value service extraction of `_parse_incident` (lines 142-156): the
service id is `external_id or id` (Python truthiness), the display name
falls back `name -> title -> id -> "Unknown Service"`, and a value with a
falsy service id is dropped. -/
def parse_catalog_value (v : RawCustomFieldValue) : List IncidentService :=
  match v.value_catalog_entry with
  | none => []
  | some ce =>
    let sid := pyOr ce.external_id ce.id
    let sname := pyOr (pyOr (pyOr ce.name ce.title) sid) (some ("Unknown Service".data))
    if pyTruthy sid then
      [{ id := sid.getD [], name := sname.getD []
         , summary := match ce.summary with | some s => some s | none => ce.description }]
    else []

/-- Affected-service extraction of `_parse_incident` (lines 129-156):
services are read only from custom-field entries whose field id equals the
configured `SERVICE_FIELD_ID`. -/
def parse_services (fieldId : Str) (entries : List RawCustomFieldEntry) :
    List IncidentService :=
  entries.flatMap (fun entry =>
    if entry.custom_field_id.getD [] == fieldId then
      entry.values.flatMap parse_catalog_value
    else [])

/-- `IncidentIOClient._parse_incident`.  `fieldId` is the configured
`SERVICE_FIELD_ID`; `now` is the clock value `datetime.now()` reads. -/
def parse_incident (fieldId : Str) (now : Int) (r : RawIncident) : Incident :=
  let services : List IncidentService := parse_services fieldId r.custom_field_entries
  let created_at : Int := match r.created_at with
    | none => now
    | some s => (fromisoformat (replaceZ s)).getD now
  let updated_at : Int := match r.updated_at with
    | none => created_at
    | some s => (fromisoformat (replaceZ s)).getD created_at
  let resolved_at : Option Int := match r.resolved_at with
    | none => none
    | some s => if s.isEmpty then none else fromisoformat (replaceZ s)
  { id := r.id.getD ("unknown".data),
    name := r.name.getD ("Unknown Incident".data),
    summary := r.summary,
    description := r.description,
    created_at := created_at,
    updated_at := updated_at,
    resolved_at := resolved_at,
    severity := parse_severity r.severity,
    status := parse_status (match r.incident_status with
      | some v => some v
      | none => r.status),
    services := services,
    visibility := r.visibility.getD ("private".data) }

/-- Parsing one element of the `incidents` array: a malformed element raises
and is skipped by the caller (modeled as `none`). -/
def parse_entry (fieldId : Str) (now : Int) : RawIncidentEntry → Option Incident
  | .well r => some (parse_incident fieldId now r)
  | .malformed => none

/-- `IncidentIOClient.get_incidents` restricted to its data path: parse each
payload element, appending successes and skipping failures. -/
def get_incidents (fieldId : Str) (now : Int) (entries : List RawIncidentEntry) :
    List Incident :=
  entries.foldl (fun acc e =>
    (parse_entry fieldId now e).elim acc (fun inc => acc ++ [inc])) []

/-- `IncidentIOClient.get_public_incidents_last_n_days`: fetch, then keep
only incidents whose visibility equals `"public"`.  The lookback `days`
only shapes the HTTP query; with a frozen payload it does not affect the
data path. -/
def get_public_incidents_last_n_days (fieldId : Str) (now : Int) (days : Nat)
    (entries : List RawIncidentEntry) : List Incident :=
  let _ := days
  (get_incidents fieldId now entries).filter (fun i => i.visibility == "public".data)

/-! ### Catalog data model (`models.py`)

Numeric scores are floats in the source; the modeled code paths only pass
them through unmodified, so they are represented as rationals. -/

/-- `models.ScorecardRule`. -/
structure ScorecardRule where
  expression : Str
  level : Str
  title : Str
  description : Option Str := none
  weight : Option Int := none
deriving DecidableEq

/-- `models.ScorecardScore`. -/
structure ScorecardScore where
  rule : ScorecardRule
  score : Option Rat := none
  level : Option Str := none
deriving DecidableEq

/-- `models.ServiceScorecard`. -/
structure ServiceScorecard where
  service_tag : Str
  scorecard_tag : Str
  scores : List ScorecardScore := []
  total_score : Option Rat := none
  current_level : Option Str := none
deriving DecidableEq

/-- `models.CortexService`. -/
structure CortexService where
  tag : Str
  title : Str
  summary : Option Str := none
  type : Option Str := none
deriving DecidableEq

/-! ### Raw catalog payloads (`cortex_client.py`) -/

/-- One rule of the scorecard-definition response (`scorecard.rules`). -/
structure RawRuleDef where
  identifier : Option Str := none
  title : Option Str := none
  description : Option Str := none
  weight : Option Int := none
deriving DecidableEq

/-- The scorecard-definition payload (`scorecards/{tag}`). -/
structure ScorecardDefPayload where
  rules : List RawRuleDef := []
deriving DecidableEq

/-- One per-rule score inside a service score (`score.rules`). -/
structure RawRuleScore where
  identifier : Option Str := none
  expression : Option Str := none
  score : Option Rat := none
deriving DecidableEq

/-- A ladder `level` dictionary; `none` models an absent or falsy dict. -/
structure RawLevel where
  name : Option Str := none
deriving DecidableEq

/-- One entry of `score.ladderLevels`. -/
structure RawLadderLevel where
  level : Option RawLevel := none
deriving DecidableEq

/-- The `score` dictionary of a service score; `summary_score` models
`score.get("summary", {}).get("score")`. -/
structure RawScoreData where
  rules : List RawRuleScore := []
  summary_score : Option Rat := none
  ladderLevels : List RawLadderLevel := []
deriving DecidableEq

/-- One element of a `serviceScores` array; `service_tag` models
`service_score.get("service", {}).get("tag")`. -/
structure RawServiceScore where
  service_tag : Option Str := none
  score : RawScoreData := {}
deriving DecidableEq

/-- The scores payload (`scorecards/{tag}/scores`). -/
structure ScoresPayload where
  serviceScores : List RawServiceScore := []
deriving DecidableEq

/-- Scorecard metadata from the `scorecards` listing. -/
structure RawScorecardMeta where
  tag : Option Str := none
  name : Option Str := none
deriving DecidableEq

/-- Outcome of one HTTP round trip: a decoded payload, or the non-2xx
status on which `raise_for_status` raises `HTTPStatusError`. -/
inductive HttpResult (α : Type) where
  | ok (payload : α)
  | err (status : Nat)

/-- The per-rule info record built from the scorecard definition. -/
structure RuleInfo where
  title : Str
  description : Str
  weight : Option Int := none
deriving DecidableEq

/-- Dictionary insert with overwrite, preserving first-insertion key order
(CPython dict semantics). -/
def upsertA (m : List (Option Str × RuleInfo)) (k : Option Str) (v : RuleInfo) :
    List (Option Str × RuleInfo) :=
  if m.any (fun p => p.1 == k) then m.map (fun p => if p.1 == k then (p.1, v) else p)
  else m ++ [(k, v)]

/-- `rule_info_map` construction in `get_service_scorecard` (lines 112-118).
Keys are the raw `identifier` values, which may be absent. -/
def buildRuleInfo (defs : List RawRuleDef) : List (Option Str × RuleInfo) :=
  defs.foldl (fun m rule =>
    upsertA m rule.identifier
      { title := match rule.title with
          | some t => t
          | none => rule.identifier.getD []
        , description := rule.description.getD []
        , weight := rule.weight }) []

/-- `CortexIOClient._parse_scorecard_from_service_score`. -/
def parse_scorecard_from_service_score (service_tag scorecard_tag : Str)
    (ss : RawServiceScore) (ruleInfo : List (Option Str × RuleInfo)) : ServiceScorecard :=
  let scores := ss.score.rules.map (fun rs =>
    let rid := rs.identifier.getD []
    let info := (ruleInfo.find? (fun p => p.1 == some rid)).map Prod.snd
    let rule : ScorecardRule :=
      { expression := rs.expression.getD []
        , level := []
        , title := match info with | some i => i.title | none => rid
        , description := some (match info with | some i => i.description | none => [])
        , weight := match info with | some i => i.weight | none => none }
    ({ rule := rule, score := rs.score, level := none } : ScorecardScore))
  let current_level : Option Str :=
    match ss.score.ladderLevels.find? (fun li => li.level.isSome) with
    | some li => match li.level with
      | some lv => some (lv.name.getD [])
      | none => none
    | none => none
  { service_tag := service_tag, scorecard_tag := scorecard_tag, scores := scores,
    total_score := ss.score.summary_score, current_level := current_level }

/-- `CortexIOClient.get_service_scorecard`: two round trips (scorecard
definition, then scores filtered by entity tag).  A 404 from either request
yields `none`; any other non-2xx status re-raises; an absent score entry
for the service tag yields `none`. -/
def get_service_scorecard (defResp : HttpResult ScorecardDefPayload)
    (scoresResp : HttpResult ScoresPayload) (service_tag scorecard_tag : Str) :
    Except Nat (Option ServiceScorecard) :=
  match defResp with
  | .err code => if code == 404 then .ok none else .error code
  | .ok defP =>
    match scoresResp with
    | .err code => if code == 404 then .ok none else .error code
    | .ok sp =>
      let ruleInfo := buildRuleInfo defP.rules
      match sp.serviceScores.find? (fun ss => ss.service_tag == some service_tag) with
      | some ss =>
        .ok (some (parse_scorecard_from_service_score service_tag scorecard_tag ss ruleInfo))
      | none => .ok none

/-! ### Catalog aggregate resolution (`cortex_client.py`) -/

/-- Frozen catalog API environment for the aggregate resolution's success
path.  `targets` — Modelled from the spec: the `TARGET_SCORECARDS`
configured set of target identifier/name pairs is imported by the client
but absent from the repository's config module; the spec describes it as
"a configured set of target identifiers/names".  `all_services` is the
frozen result of `get_services`; `lookup` gives the frozen outcome of
`get_service_scorecard` per (service tag, scorecard tag) pair. -/
structure CortexEnv where
  targets : List (Str × Str)
  all_services : List CortexService
  all_scorecards : List RawScorecardMeta
  lookup : Str → Str → Option ServiceScorecard

/-- The scorecard-tag scan of `get_service_scorecards_by_names` (lines
186-201): keep a scorecard when some target id is a substring of its tag
(case-sensitive) or some target name, lowercased, is a substring of its
lowercased name. -/
def selected_scorecard_tags (scorecards : List RawScorecardMeta)
    (targets : List (Str × Str)) : List Str :=
  scorecards.foldl (fun acc sc =>
    if targets.any (fun t =>
        containsStr (sc.tag.getD []) t.1 ||
        containsStr (pyLower (sc.name.getD [])) (pyLower t.2)) then
      acc ++ [sc.tag.getD []]
    else acc) []

/-- Dictionary insert with overwrite for the service-tag map. -/
def upsertS (m : List (Str × Str)) (k v : Str) : List (Str × Str) :=
  if m.any (fun p => p.1 == k) then m.map (fun p => if p.1 == k then (p.1, v) else p)
  else m ++ [(k, v)]

/-- `service_tag_map` construction (lines 178-184): lowercased titles map
to tags, then lowercased tags map to tags. -/
def build_service_tag_map (services : List CortexService) : List (Str × Str) :=
  let m := services.foldl (fun m s => upsertS m (pyLower s.title) s.tag) []
  services.foldl (fun m s => upsertS m (pyLower s.tag) s.tag) m

/-- Fuzzy name-to-tag resolution (lines 206-214): first map entry whose key
contains the lowercased name or is contained in it. -/
def resolve_service_tag (m : List (Str × Str)) (service_name : Str) : Option Str :=
  let snl := pyLower service_name
  (m.find? (fun p => containsStr p.1 snl || containsStr snl p.1)).map Prod.snd

/-- `CortexIOClient.get_service_scorecards_by_names` (success path).
`scorecard_tags = none` models the `None` argument; a supplied empty list
also triggers the recompute (`if not scorecard_tags`). -/
def get_service_scorecards_by_names (env : CortexEnv) (service_names : List Str)
    (scorecard_tags : Option (List Str)) : List ServiceScorecard :=
  let tagMap := build_service_tag_map env.all_services
  let needCompute := match scorecard_tags with
    | none => true
    | some ts => ts.isEmpty
  let tags := if needCompute then selected_scorecard_tags env.all_scorecards env.targets
              else scorecard_tags.getD []
  if needCompute && tags.isEmpty then []
  else
    service_names.flatMap (fun nm =>
      match resolve_service_tag tagMap nm with
      | none => []
      | some t => tags.filterMap (fun sct => env.lookup t sct))

/-- Grouping step of `get_target_scorecards_for_services` (lines 241-246). -/
def add_scorecard (m : List (Str × List ServiceScorecard)) (sc : ServiceScorecard) :
    List (Str × List ServiceScorecard) :=
  if m.any (fun p => p.1 == sc.service_tag) then
    m.map (fun p => if p.1 == sc.service_tag then (p.1, p.2 ++ [sc]) else p)
  else m ++ [(sc.service_tag, [sc])]

/-- `CortexIOClient.get_target_scorecards_for_services`: fetch scorecards
for the names, then group by service tag (insertion-ordered mapping). -/
def get_target_scorecards_for_services (env : CortexEnv) (service_names : List Str) :
    List (Str × List ServiceScorecard) :=
  (get_service_scorecards_by_names env service_names none).foldl add_scorecard []

/-! ### Report data model (`models.py`) and engine (`reporter.py`) -/

/-- `models.ServiceImpactReport`. -/
structure ServiceImpactReport where
  service_name : Str
  service_tag : Str
  incident_count : Nat
  incidents : List Str := []
  scorecards : List ServiceScorecard := []
  total_score : Option Rat := none
deriving DecidableEq

/-- `models.IncidentReport`. -/
structure IncidentReport where
  report_generated_at : Int
  period_start : Int
  period_end : Int
  total_incidents : Nat
  impacted_services : List ServiceImpactReport := []
deriving DecidableEq

/-- One `defaultdict(list)` append for `_group_incidents_by_service`,
preserving key insertion order. -/
def add_to_group (m : List (Str × List Incident)) (nm : Str) (i : Incident) :
    List (Str × List Incident) :=
  if m.any (fun p => p.1 == nm) then
    m.map (fun p => if p.1 == nm then (p.1, p.2 ++ [i]) else p)
  else m ++ [(nm, [i])]

/-- Process one incident of `_group_incidents_by_service`'s outer loop. -/
def add_incident (m : List (Str × List Incident)) (i : Incident) :
    List (Str × List Incident) :=
  i.services.foldl (fun m sv => add_to_group m sv.name i) m

/-- `IncidentServiceReporter._group_incidents_by_service`: append each
incident to the group of every affected-service name it lists. -/
def group_incidents_by_service (incidents : List Incident) : List (Str × List Incident) :=
  incidents.foldl add_incident []

/-- First-occurrence deduplication.  Models building the Python `set` of
impacted service names and listing it: set iteration order of a fixed
string set is deterministic within a process; the model fixes it to
first-encounter order. -/
def dedupFirst (l : List Str) : List Str :=
  l.foldl (fun acc x => if acc.any (fun y => y == x) then acc else acc ++ [x]) []

/-- The unique impacted service names derived in `generate_report`. -/
def impacted_service_names (incidents : List Incident) : List Str :=
  dedupFirst (incidents.flatMap (fun i => i.services.map (fun sv => sv.name)))

/-- The scorecard-matching passes of `generate_report` (lines 66-84): an
exact case-insensitive tag match first; if it produced an empty scorecard
list, a bidirectional substring pass that overwrites both the scorecards
and the tag on a hit and otherwise leaves the exact pass's tag in place. -/
def find_matching_scorecards (m : List (Str × List ServiceScorecard)) (service_name : Str) :
    List ServiceScorecard × Option Str :=
  let exact := m.find? (fun p => pyLower p.1 == pyLower service_name)
  let res : List ServiceScorecard × Option Str :=
    match exact with
    | some p => (p.2, some p.1)
    | none => ([], none)
  if res.1.isEmpty then
    match m.find? (fun p =>
        containsStr (pyLower p.1) (pyLower service_name) ||
        containsStr (pyLower service_name) (pyLower p.1)) with
    | some p => (p.2, some p.1)
    | none => res
  else res

/-- The per-group `ServiceImpactReport` construction (lines 64-95).
`service_tag or service_name` falls back to the raw name when the resolved
tag is `None` or empty (falsy). -/
def build_service_reports (scMap : List (Str × List ServiceScorecard))
    (groups : List (Str × List Incident)) : List ServiceImpactReport :=
  groups.map (fun g =>
    let m := find_matching_scorecards scMap g.1
    { service_name := g.1
      , service_tag := match m.2 with
          | some t => if t.isEmpty then g.1 else t
          | none => g.1
      , incident_count := g.2.length
      , incidents := g.2.map (fun i => i.id)
      , scorecards := m.1
      , total_score := none })

/-- Insert a report after every entry with an equal-or-greater count: the
stable descending insertion modeling `list.sort(key=count, reverse=True)`. -/
def insertDesc (x : ServiceImpactReport) : List ServiceImpactReport → List ServiceImpactReport
  | [] => [x]
  | y :: ys => if x.incident_count ≤ y.incident_count then y :: insertDesc x ys
               else x :: y :: ys

/-- Stable sort by `incident_count` descending (ties keep input order),
modeling Python's stable `sort(..., reverse=True)`. -/
def stableSortDesc (l : List ServiceImpactReport) : List ServiceImpactReport :=
  l.foldl (fun acc x => insertDesc x acc) []

/-- Frozen inputs of one report generation.  `fieldId` — Modelled from the
spec: the configured `SERVICE_FIELD_ID` custom-field identifier is imported
by the incident client but absent from the repository's config module; the
spec describes it as "a configured field identifier". -/
structure ReportEnv where
  fieldId : Str
  incident_entries : List RawIncidentEntry
  cortex : CortexEnv

/-- The unsorted per-service reports of `generate_report`, in grouping
insertion order. -/
def pre_sort_reports (env : ReportEnv) (now : Int) (lookback_days : Nat) :
    List ServiceImpactReport :=
  let incidents := get_public_incidents_last_n_days env.fieldId now lookback_days
    env.incident_entries
  let names := impacted_service_names incidents
  let groups := group_incidents_by_service incidents
  let scMap := get_target_scorecards_for_services env.cortex names
  build_service_reports scMap groups

/-- `IncidentServiceReporter.generate_report`: period bounds come from the
clock at invocation time; incidents are fetched, grouped, matched to
scorecards, and ranked by incident count. -/
def generate_report (env : ReportEnv) (now : Int) (lookback_days : Nat) : IncidentReport :=
  let incidents := get_public_incidents_last_n_days env.fieldId now lookback_days
    env.incident_entries
  { report_generated_at := now
    , period_start := now - (lookback_days : Int) * 86400
    , period_end := now
    , total_incidents := incidents.length
    , impacted_services := stableSortDesc (pre_sort_reports env now lookback_days) }

/-! ### Spec-side definitions and concrete payloads for the claims -/

/-- Claim C3's keep-predicate exactly as the spec words it: case-insensitive
substring match on BOTH the tag and the name ("case-insensitive substring
match on either tag-contains-target-id or target-name-contains-in-scorecard-
name").  Compare with `selected_scorecard_tags`, whose tag test does not
lowercase. -/
def keep_scorecard_claimed (targets : List (Str × Str)) (sc : RawScorecardMeta) : Bool :=
  targets.any (fun t =>
    containsStr (pyLower (sc.tag.getD [])) (pyLower t.1) ||
    containsStr (pyLower (sc.name.getD [])) (pyLower t.2))

/-- The parse of the payload's `updated_at` string, when present. -/
def parsedUpdated (r : RawIncident) : Option Int :=
  r.updated_at.bind (fun s => fromisoformat (replaceZ s))

/-- The parse of the payload's `resolved_at` string, when present. -/
def parsedResolved (r : RawIncident) : Option Int :=
  r.resolved_at.bind (fun s => fromisoformat (replaceZ s))

/-- Every successfully parsed `updated_at` is at or after the incident's
`created_at` (vacuously true when absent or unparsable). -/
def updatedOk (fieldId : Str) (now : Int) (r : RawIncident) : Bool :=
  (parsedUpdated r).all (fun u => (parse_incident fieldId now r).created_at ≤ u)

/-- Every successfully parsed `resolved_at` is at or after the incident's
`created_at` (vacuously true when absent or unparsable). -/
def resolvedOk (fieldId : Str) (now : Int) (r : RawIncident) : Bool :=
  (parsedResolved r).all (fun v => (parse_incident fieldId now r).created_at ≤ v)

/-- A public incident payload whose `updated_at` precedes its `created_at`. -/
def rOutOfOrder : RawIncident :=
  { created_at := some ("2024-01-02T00:00:00Z".data)
    , updated_at := some ("2024-01-01T00:00:00Z".data)
    , visibility := some ("public".data) }

/-- A payload whose timestamps are present, parsable, and ordered. -/
def rGood : RawIncident :=
  { created_at := some ("2024-01-01T00:00:00Z".data)
    , updated_at := some ("2024-01-02T00:00:00Z".data)
    , resolved_at := some ("2024-01-03T00:00:00Z".data)
    , visibility := some ("public".data) }

/-- A payload with no `created_at` and unparsable `updated_at`/`resolved_at`. -/
def rBadTimes : RawIncident :=
  { updated_at := some ("not a timestamp".data)
    , resolved_at := some ("also bad".data) }

/-- A catalog entry naming one affected service. -/
def ceSvc : RawCatalogEntry :=
  { external_id := some ("svc-1".data), name := some ("Payments".data) }

/-- A payload carrying one affected service in the designated custom field. -/
def rSvc : RawIncident :=
  { custom_field_entries :=
      [{ custom_field_id := some ("f1".data)
         , values := [{ value_catalog_entry := some ceSvc }] }]
    , visibility := some ("public".data) }

/-- Scorecard metadata whose tag matches a target id only up to case. -/
def scA : RawScorecardMeta :=
  { tag := some ("abc-board".data), name := some ("Ops".data) }

/-- An empty frozen catalog environment. -/
def emptyCortexEnv : CortexEnv :=
  { targets := [], all_services := [], all_scorecards := [], lookup := fun _ _ => none }

/-- An empty frozen report environment. -/
def env0 : ReportEnv :=
  { fieldId := [], incident_entries := [], cortex := emptyCortexEnv }

/-- Placeholder severity, as produced for an absent raw severity. -/
def sev0 : IncidentSeverity := ⟨"unknown".data, "Unknown".data, 0⟩

/-- Placeholder status, as produced for an absent raw status. -/
def stat0 : IncidentStatus := ⟨"unknown".data, "Unknown".data, "unknown".data⟩

/-- A concrete affected service. -/
def svcA : IncidentService := ⟨"a".data, "A".data, none⟩

/-- A concrete incident affecting `svcA`. -/
def incA : Incident :=
  { id := "i1".data, name := "N1".data, created_at := 0, updated_at := 0
    , severity := sev0, status := stat0, services := [svcA]
    , visibility := "public".data }

/-- A concrete incident affecting no services. -/
def incNoSvc : Incident :=
  { id := "i2".data, name := "N2".data, created_at := 0, updated_at := 0
    , severity := sev0, status := stat0, services := []
    , visibility := "public".data }

/-- Equality of the incident projections the report engine consumes (id,
affected services, visibility); the clock only ever influences the other
fields. -/
def coreEq (i j : Incident) : Prop :=
  i.id = j.id ∧ i.services = j.services ∧ i.visibility = j.visibility

/-! ## Helper lemmas -/

/-- The append-collecting fold of the fetch loop equals `filterMap`. -/
theorem foldl_collect_eq {α β : Type} (g : α → Option β) (es : List α) (acc : List β) :
    es.foldl (fun a e => (g e).elim a (fun x => a ++ [x])) acc
      = acc ++ es.filterMap g := by
  induction es generalizing acc with
  | nil => simp
  | cons e t ih =>
    cases h : g e with
    | none => simp [List.foldl_cons, h, ih, List.filterMap_cons]
    | some x => simp [List.foldl_cons, h, ih, List.filterMap_cons]

/-- `get_incidents` collects exactly the successfully parsed entries. -/
theorem get_incidents_eq (fieldId : Str) (now : Int) (entries : List RawIncidentEntry) :
    get_incidents fieldId now entries = entries.filterMap (parse_entry fieldId now) := by
  simpa [get_incidents] using foldl_collect_eq (parse_entry fieldId now) entries []

/-- Membership in the public-incident output: parsed successfully and
visibility is `"public"`. -/
theorem mem_public_incidents_iff (fieldId : Str) (now : Int) (days : Nat)
    (entries : List RawIncidentEntry) (i : Incident) :
    i ∈ get_public_incidents_last_n_days fieldId now days entries ↔
      i ∈ entries.filterMap (parse_entry fieldId now) ∧ i.visibility = "public".data := by
  unfold get_public_incidents_last_n_days
  rw [get_incidents_eq]
  simp [List.mem_filter]

/-! ## C2 -/

/-- C2: for every frozen payload and lookback, the output of
`get_public_incidents_last_n_days` contains exactly the successfully parsed
incidents whose visibility equals "public"; every other visibility is
excluded. -/
theorem c2_output_is_public_filter (fieldId : Str) (now : Int) (days : Nat)
    (entries : List RawIncidentEntry) (i : Incident) :
    i ∈ get_public_incidents_last_n_days fieldId now days entries ↔
      i ∈ entries.filterMap (parse_entry fieldId now) ∧ i.visibility = "public".data :=
  mem_public_incidents_iff fieldId now days entries i

/-! ## C9 -/

/-- C9: a raw payload with no visibility field parses to visibility
"private", and such an incident is never in the output of
`get_public_incidents_last_n_days`. -/
theorem c9_missing_visibility_private (fieldId : Str) (now : Int) (days : Nat)
    (entries : List RawIncidentEntry) (r : RawIncident) (h : r.visibility = none) :
    (parse_incident fieldId now r).visibility = "private".data ∧
      parse_incident fieldId now r ∉ get_public_incidents_last_n_days fieldId now days entries := by
  have hv : (parse_incident fieldId now r).visibility = "private".data := by
    simp [parse_incident, h]
  refine ⟨hv, fun hmem => ?_⟩
  have h2 := ((mem_public_incidents_iff fieldId now days entries _).mp hmem).2
  rw [hv] at h2
  exact absurd h2 (by decide)

/-- Witness for C9 at a concrete payload. -/
theorem c9_witness :
    (parse_incident [] 0 {}).visibility = "private".data ∧
      parse_incident [] 0 {} ∉ get_public_incidents_last_n_days [] 0 30 [] :=
  c9_missing_visibility_private [] 0 30 [] {} rfl

/-! ## C5 -/

/-- `replaceZ` distributes over append. -/
theorem replaceZ_append (a b : Str) : replaceZ (a ++ b) = replaceZ a ++ replaceZ b := by
  simp [replaceZ]

/-- `replaceZ` fixes strings without `'Z'`. -/
theorem replaceZ_of_not_mem : ∀ {s : Str}, 'Z' ∉ s → replaceZ s = s := by
  intro s h
  induction s with
  | nil => rfl
  | cons c t ih =>
    rw [List.mem_cons, not_or] at h
    have hc : (c == 'Z') = false := by simpa using Ne.symm h.1
    have ht := ih h.2
    simp only [replaceZ] at ht ⊢
    rw [List.flatMap_cons, ht, hc]
    simp

/-- `naiveParts` rejects any list that is not 19 characters long. -/
theorem naiveParts_eq_none_of_length_ne (l : Str) (h : l.length ≠ 19) :
    naiveParts l = none := by
  unfold naiveParts
  split
  · next => exact absurd (by simp) h
  · rfl

/-- A 19-character string accepted by `fromisoformat` is accepted by
`naiveParts`. -/
theorem naiveParts_isSome_of_fromiso {s : Str} (h19 : s.length = 19)
    (h : (fromisoformat s).isSome = true) : (naiveParts s).isSome = true := by
  unfold fromisoformat at h
  cases hn : naiveParts s with
  | some p => simp
  | none =>
    rw [hn] at h
    have htake : s.take 19 = s := by
      rw [← h19]; exact List.take_length s
    rw [htake, hn] at h
    simp at h

/-- C5: timestamp fallback behavior of `_parse_incident`: a missing or
unparsable `created_at` falls back to the current time; a missing or
unparsable `updated_at` falls back to the incident's `created_at`; an
unparsable `resolved_at` is left absent while the incident is still
produced (not skipped); and a `Z`-suffixed UTC timestamp parses
successfully after the `Z`-to-`+00:00` replacement. -/
theorem c5_timestamp_fallbacks (fieldId : Str) (now : Int) (r : RawIncident) (s : Str) :
    parse_entry fieldId now (.well r) = some (parse_incident fieldId now r)
    ∧ (r.created_at = none → (parse_incident fieldId now r).created_at = now)
    ∧ (r.created_at = some s → fromisoformat (replaceZ s) = none →
        (parse_incident fieldId now r).created_at = now)
    ∧ (r.updated_at = none →
        (parse_incident fieldId now r).updated_at = (parse_incident fieldId now r).created_at)
    ∧ (r.updated_at = some s → fromisoformat (replaceZ s) = none →
        (parse_incident fieldId now r).updated_at = (parse_incident fieldId now r).created_at)
    ∧ (r.resolved_at = some s → fromisoformat (replaceZ s) = none →
        (parse_incident fieldId now r).resolved_at = none)
    ∧ ('Z' ∉ s → s.length = 19 → (fromisoformat s).isSome = true →
        (fromisoformat (replaceZ (s ++ ['Z']))).isSome = true) := by
  refine ⟨rfl, ?_, ?_, ?_, ?_, ?_, ?_⟩
  · intro h; simp [parse_incident, h]
  · intro h h2; simp [parse_incident, h, h2]
  · intro h; simp [parse_incident, h]
  · intro h h2; simp [parse_incident, h, h2]
  · intro h h2; simp [parse_incident, h, h2]
  · intro hZ h19 hsome
    have hz : replaceZ (s ++ ['Z']) = s ++ "+00:00".data := by
      rw [replaceZ_append, replaceZ_of_not_mem hZ]
      rfl
    rw [hz]
    have hnp := naiveParts_isSome_of_fromiso h19 hsome
    obtain ⟨p, hp⟩ := Option.isSome_iff_exists.mp hnp
    have hlen : (s ++ "+00:00".data).length = 25 := by simp [h19]
    unfold fromisoformat
    rw [naiveParts_eq_none_of_length_ne _ (by rw [hlen]; decide)]
    have htake : (s ++ "+00:00".data).take 19 = s := by
      rw [← h19]; exact List.take_left s _
    have hdrop : (s ++ "+00:00".data).drop 19 = "+00:00".data := by
      rw [← h19]; exact List.drop_left s _
    have hoff : offSecs ("+00:00".data) = some 0 := by decide
    rw [htake, hdrop, hp, hoff]
    simp

/-- Witness for C5 at concrete payloads. -/
theorem c5_witness :
    (parse_incident [] 7 rBadTimes).created_at = 7
    ∧ (parse_incident [] 7 rBadTimes).updated_at = (parse_incident [] 7 rBadTimes).created_at
    ∧ (parse_incident [] 7 rBadTimes).resolved_at = none
    ∧ parse_entry [] 7 (.well rBadTimes) = some (parse_incident [] 7 rBadTimes)
    ∧ (fromisoformat (replaceZ (("2024-05-01T10:00:00".data) ++ ['Z']))).isSome = true := by
  have h := c5_timestamp_fallbacks [] 7 rBadTimes ("not a timestamp".data)
  have h2 := c5_timestamp_fallbacks [] 7 rBadTimes ("also bad".data)
  have h3 := c5_timestamp_fallbacks [] 7 rBadTimes ("2024-05-01T10:00:00".data)
  exact ⟨h.2.1 rfl,
    h.2.2.2.2.1 rfl (by decide),
    h2.2.2.2.2.2.1 rfl (by decide),
    h.1,
    h3.2.2.2.2.2.2 (by decide) (by decide) (by decide)⟩

/-! ## C1 -/

/-- C1 counterexample: with a frozen payload whose `updated_at` string
precedes its `created_at` string, the adapter returns exactly one public
incident and it violates `created_at ≤ updated_at`: the parser enforces no
ordering between the payload's timestamps. -/
theorem c1_counterexample :
    (get_public_incidents_last_n_days [] 0 30 [.well rOutOfOrder]).length = 1
    ∧ (get_public_incidents_last_n_days [] 0 30 [.well rOutOfOrder]).all
        (fun i => i.updated_at < i.created_at) = true := by
  constructor
  · rfl
  · decide

/-- C1 (amended): the adapter-returned incident satisfies
`created_at ≤ updated_at` and `created_at ≤ resolved_at` whenever the
payload's successfully parsed `updated_at`/`resolved_at` values are
themselves at or after the incident's `created_at`; the absent/unparsable
fallbacks (`updated_at := created_at`, `resolved_at := absent`) satisfy the
ordering unconditionally.  The parser itself enforces nothing, so payloads
with earlier parsed values violate the invariant. -/
theorem c1_amended (fieldId : Str) (now : Int) (r : RawIncident)
    (hu : updatedOk fieldId now r = true) (hr : resolvedOk fieldId now r = true) :
    (parse_incident fieldId now r).created_at ≤ (parse_incident fieldId now r).updated_at
    ∧ ∀ v, (parse_incident fieldId now r).resolved_at = some v →
        (parse_incident fieldId now r).created_at ≤ v := by
  constructor
  · cases hup : r.updated_at with
    | none => simp [parse_incident, hup]
    | some s =>
      cases hfi : fromisoformat (replaceZ s) with
      | none => simp [parse_incident, hup, hfi]
      | some u =>
        unfold updatedOk parsedUpdated at hu
        rw [hup] at hu
        simp [hfi, Option.all] at hu
        simpa [parse_incident, hup, hfi] using hu
  · intro v hv
    cases hres : r.resolved_at with
    | none => rw [show (parse_incident fieldId now r).resolved_at = none by
                simp [parse_incident, hres]] at hv; exact absurd hv (by simp)
    | some s =>
      by_cases he : s.isEmpty
      · rw [show (parse_incident fieldId now r).resolved_at = none by
          simp [parse_incident, hres, he]] at hv
        exact absurd hv (by simp)
      · cases hfi : fromisoformat (replaceZ s) with
        | none =>
          rw [show (parse_incident fieldId now r).resolved_at = none by
            simp [parse_incident, hres, he, hfi]] at hv
          exact absurd hv (by simp)
        | some w =>
          have hwv : w = v := by
            have := hv
            rw [show (parse_incident fieldId now r).resolved_at = some w by
              simp [parse_incident, hres, he, hfi]] at this
            simpa using this
          unfold resolvedOk parsedResolved at hr
          rw [hres] at hr
          simp [hfi, Option.all] at hr
          exact hwv ▸ hr

/-- Witness for C1 (amended) at a concrete in-order payload. -/
theorem c1_amended_witness :
    (parse_incident [] 0 rGood).created_at ≤ (parse_incident [] 0 rGood).updated_at :=
  (c1_amended [] 0 rGood (by decide) (by decide)).1

/-! ## C10 -/

/-- `pyOr` is truthy whenever its right argument is. -/
theorem pyTruthy_pyOr_right {a b : Option Str} (h : pyTruthy b = true) :
    pyTruthy (pyOr a b) = true := by
  unfold pyOr; split <;> simp_all

/-- A truthy left argument absorbs the fallback. -/
theorem pyOr_of_truthy {x d : Option Str} (h : pyTruthy x = true) : pyOr x d = x := by
  unfold pyOr; simp [h]

/-- The services of a parsed incident are exactly the services its
entries' catalog values yield. -/
theorem parse_incident_services (fieldId : Str) (now : Int) (r : RawIncident) :
    (parse_incident fieldId now r).services = parse_services fieldId r.custom_field_entries :=
  rfl

/-- C10: every affected-service record included by the parser has a
non-empty id taken from the catalog entry's `external_id or id`, and its
name is the `name -> title -> id` chain without the terminal
`"Unknown Service"` fallback, which is unreachable for included records:
catalog values with a falsy service id are dropped entirely. -/
theorem c10_included_services (fieldId : Str) (now : Int) (r : RawIncident)
    (sv : IncidentService) (h : sv ∈ (parse_incident fieldId now r).services) :
    sv.id ≠ [] ∧
    ∃ entry ∈ r.custom_field_entries, ∃ v ∈ entry.values, ∃ ce,
      v.value_catalog_entry = some ce ∧
      pyTruthy (pyOr ce.external_id ce.id) = true ∧
      sv.id = (pyOr ce.external_id ce.id).getD [] ∧
      sv.name = (pyOr (pyOr ce.name ce.title) (pyOr ce.external_id ce.id)).getD [] := by
  rw [parse_incident_services] at h
  unfold parse_services at h
  rw [List.mem_flatMap] at h
  obtain ⟨entry, hentry, hsv⟩ := h
  by_cases hid : (entry.custom_field_id.getD [] == fieldId) = true
  · rw [if_pos hid, List.mem_flatMap] at hsv
    obtain ⟨v, hv, hsv⟩ := hsv
    cases hce : v.value_catalog_entry with
    | none => rw [parse_catalog_value, hce] at hsv; simp at hsv
    | some ce =>
      rw [parse_catalog_value, hce] at hsv
      simp only at hsv
      by_cases ht : pyTruthy (pyOr ce.external_id ce.id) = true
      · rw [if_pos ht, List.mem_singleton] at hsv
        subst hsv
        have habsorb :
            pyOr (pyOr (pyOr ce.name ce.title) (pyOr ce.external_id ce.id))
              (some ("Unknown Service".data))
              = pyOr (pyOr ce.name ce.title) (pyOr ce.external_id ce.id) :=
          pyOr_of_truthy (pyTruthy_pyOr_right ht)
        refine ⟨?_, entry, hentry, v, hv, ce, hce, ht, rfl, by rw [habsorb]⟩
        cases hx : pyOr ce.external_id ce.id with
        | none => rw [hx] at ht; simp [pyTruthy] at ht
        | some s =>
          rw [hx] at ht
          simp only [pyTruthy, Bool.not_eq_true'] at ht
          simpa [hx] using fun hnil => by simp [hnil] at ht
      · rw [if_neg ht] at hsv; simp at hsv
  · rw [if_neg hid] at hsv; simp at hsv

/-- Witness for C10 at a concrete payload with one included service. -/
theorem c10_witness :
    (⟨"svc-1".data, "Payments".data, none⟩ : IncidentService).id ≠ [] ∧
    ∃ entry ∈ rSvc.custom_field_entries, ∃ v ∈ entry.values, ∃ ce,
      v.value_catalog_entry = some ce ∧
      pyTruthy (pyOr ce.external_id ce.id) = true ∧
      (⟨"svc-1".data, "Payments".data, none⟩ : IncidentService).id
        = (pyOr ce.external_id ce.id).getD [] ∧
      (⟨"svc-1".data, "Payments".data, none⟩ : IncidentService).name
        = (pyOr (pyOr ce.name ce.title) (pyOr ce.external_id ce.id)).getD [] :=
  c10_included_services ("f1".data) 0 rSvc ⟨"svc-1".data, "Payments".data, none⟩ (by decide)

/-! ## C7 -/

/-- Membership characterization of one grouping append: the entry keyed `n`
containing `x` exists afterward iff it existed before, or `x` is the
incident just appended under key `nm`. -/
theorem mem_add_to_group {m : List (Str × List Incident)} {nm : Str} {i : Incident}
    {n : Str} {x : Incident} :
    (∃ p ∈ add_to_group m nm i, p.1 = n ∧ x ∈ p.2) ↔
      ((∃ p ∈ m, p.1 = n ∧ x ∈ p.2) ∨ (n = nm ∧ x = i)) := by
  unfold add_to_group
  by_cases hk : (m.any (fun p => p.1 == nm)) = true
  · rw [if_pos hk]
    constructor
    · rintro ⟨p', hp', hn, hx⟩
      obtain ⟨p, hp, rfl⟩ := List.mem_map.mp hp'
      by_cases hpe : (p.1 == nm) = true
      · rw [if_pos hpe] at hn hx
        rcases List.mem_append.mp hx with hx | hx
        · exact Or.inl ⟨p, hp, hn, hx⟩
        · have hxi : x = i := by simpa using hx
          have hnm : n = nm := by rw [← hn]; simpa using hpe
          exact Or.inr ⟨hnm, hxi⟩
      · rw [if_neg hpe] at hn hx
        exact Or.inl ⟨p, hp, hn, hx⟩
    · rintro (⟨p, hp, hn, hx⟩ | ⟨hnm, hxi⟩)
      · refine ⟨(if (p.1 == nm) = true then (p.1, p.2 ++ [i]) else p),
          List.mem_map_of_mem _ hp, ?_⟩
        by_cases hpe : (p.1 == nm) = true
        · rw [if_pos hpe]
          exact ⟨hn, List.mem_append_left _ hx⟩
        · rw [if_neg hpe]
          exact ⟨hn, hx⟩
      · obtain ⟨q, hq, hqe⟩ := List.any_eq_true.mp hk
        have hq1 : q.1 = nm := by simpa using hqe
        refine ⟨(q.1, q.2 ++ [i]), ?_, by rw [hq1, hnm], ?_⟩
        · have he : (if (q.1 == nm) = true then (q.1, q.2 ++ [i]) else q)
              = (q.1, q.2 ++ [i]) := if_pos hqe
          exact he ▸ List.mem_map_of_mem _ hq
        · rw [hxi]
          exact List.mem_append_right _ (by simp)
  · rw [if_neg hk]
    constructor
    · rintro ⟨p, hp, hn, hx⟩
      rcases List.mem_append.mp hp with hp | hp
      · exact Or.inl ⟨p, hp, hn, hx⟩
      · have hpe : p = (nm, [i]) := by simpa using hp
        subst hpe
        exact Or.inr ⟨hn.symm, by simpa using hx⟩
    · rintro (⟨p, hp, hn, hx⟩ | ⟨hnm, hxi⟩)
      · exact ⟨p, List.mem_append_left _ hp, hn, hx⟩
      · exact ⟨(nm, [i]), List.mem_append_right _ (by simp), hnm.symm, by rw [hxi]; simp⟩

/-- Membership characterization after folding one incident's services. -/
theorem mem_add_incident_aux (i : Incident) (n : Str) (x : Incident) :
    ∀ (svs : List IncidentService) (m : List (Str × List Incident)),
      (∃ p ∈ svs.foldl (fun m sv => add_to_group m sv.name i) m, p.1 = n ∧ x ∈ p.2) ↔
        ((∃ p ∈ m, p.1 = n ∧ x ∈ p.2) ∨ (x = i ∧ ∃ sv ∈ svs, sv.name = n)) := by
  intro svs
  induction svs with
  | nil => intro m; simp
  | cons sv t ih =>
    intro m
    rw [List.foldl_cons, ih, mem_add_to_group]
    constructor
    · rintro ((h | ⟨hn, hx⟩) | ⟨hx, sv', hsv', hn⟩)
      · exact Or.inl h
      · exact Or.inr ⟨hx, sv, List.mem_cons_self _ _, hn.symm⟩
      · exact Or.inr ⟨hx, sv', List.mem_cons_of_mem _ hsv', hn⟩
    · rintro (h | ⟨hx, sv', hsv', hn⟩)
      · exact Or.inl (Or.inl h)
      · rcases List.mem_cons.mp hsv' with hh | hh
        · subst hh
          exact Or.inl (Or.inr ⟨hn.symm, hx⟩)
        · exact Or.inr ⟨hx, sv', hh, hn⟩

/-- Membership characterization after grouping any incident list over any
accumulator. -/
theorem mem_group_incidents_aux (n : Str) (x : Incident) :
    ∀ (incs : List Incident) (m : List (Str × List Incident)),
      (∃ p ∈ incs.foldl add_incident m, p.1 = n ∧ x ∈ p.2) ↔
        ((∃ p ∈ m, p.1 = n ∧ x ∈ p.2) ∨
          (x ∈ incs ∧ ∃ sv ∈ x.services, sv.name = n)) := by
  intro incs
  induction incs with
  | nil => intro m; simp
  | cons i t ih =>
    intro m
    rw [List.foldl_cons, ih]
    rw [show add_incident m i = i.services.foldl (fun m sv => add_to_group m sv.name i) m
      from rfl]
    rw [mem_add_incident_aux]
    constructor
    · rintro ((h | ⟨hx, hsv⟩) | ⟨hx, hsv⟩)
      · exact Or.inl h
      · subst hx
        exact Or.inr ⟨List.mem_cons_self _ _, hsv⟩
      · exact Or.inr ⟨List.mem_cons_of_mem _ hx, hsv⟩
    · rintro (h | ⟨hx, hsv⟩)
      · exact Or.inl (Or.inl h)
      · rcases List.mem_cons.mp hx with hh | hh
        · subst hh
          exact Or.inl (Or.inr ⟨rfl, hsv⟩)
        · exact Or.inr ⟨hh, hsv⟩

/-- Membership characterization of `group_incidents_by_service`. -/
theorem mem_group_incidents (incs : List Incident) (n : Str) (x : Incident) :
    (∃ p ∈ group_incidents_by_service incs, p.1 = n ∧ x ∈ p.2) ↔
      (x ∈ incs ∧ ∃ sv ∈ x.services, sv.name = n) := by
  unfold group_incidents_by_service
  rw [mem_group_incidents_aux]
  simp

/-- C7: grouping by affected-service name is exhaustive and exact: the ids
appearing in some group are exactly the ids of incidents with at least one
affected service; an incident appears in the group of each service name it
lists; and an incident with no affected services appears in no group. -/
theorem c7_grouping (incs : List Incident) :
    (∀ idv : Str,
      (∃ p ∈ group_incidents_by_service incs, ∃ i ∈ p.2, i.id = idv) ↔
        (∃ i ∈ incs, i.id = idv ∧ i.services ≠ [])) ∧
    (∀ i ∈ incs, ∀ sv ∈ i.services,
      ∃ p ∈ group_incidents_by_service incs, p.1 = sv.name ∧ i ∈ p.2) ∧
    (∀ i : Incident, i.services = [] →
      ∀ p ∈ group_incidents_by_service incs, i ∉ p.2) := by
  refine ⟨?_, ?_, ?_⟩
  · intro idv
    constructor
    · rintro ⟨p, hp, i, hi, hid⟩
      have := (mem_group_incidents incs p.1 i).mp ⟨p, hp, rfl, hi⟩
      obtain ⟨hin, sv, hsv, _⟩ := this
      exact ⟨i, hin, hid, fun hnil => by rw [hnil] at hsv; cases hsv⟩
    · rintro ⟨i, hin, hid, hne⟩
      obtain ⟨sv, hsv⟩ := List.exists_mem_of_ne_nil _ hne
      obtain ⟨p, hp, _, hip⟩ := (mem_group_incidents incs sv.name i).mpr ⟨hin, sv, hsv, rfl⟩
      exact ⟨p, hp, i, hip, hid⟩
  · intro i hin sv hsv
    exact (mem_group_incidents incs sv.name i).mpr ⟨hin, sv, hsv, rfl⟩
  · intro i hnil p hp hip
    have := (mem_group_incidents incs p.1 i).mp ⟨p, hp, rfl, hip⟩
    obtain ⟨_, sv, hsv, _⟩ := this
    rw [hnil] at hsv
    cases hsv

/-- Witness for C7 at a concrete incident list. -/
theorem c7_witness :
    ∃ p ∈ group_incidents_by_service [incA, incNoSvc], p.1 = svcA.name ∧ incA ∈ p.2 :=
  (c7_grouping [incA, incNoSvc]).2.1 incA (by decide) svcA (by decide)

/-! ## C8 -/

/-- Members of an insertion are the inserted element and the old members. -/
theorem mem_insertDesc {x a : ServiceImpactReport} :
    ∀ {l : List ServiceImpactReport}, a ∈ insertDesc x l ↔ a = x ∨ a ∈ l := by
  intro l
  induction l with
  | nil => simp [insertDesc]
  | cons y ys ih =>
    by_cases h : x.incident_count ≤ y.incident_count
    · rw [insertDesc, if_pos h]
      simp only [List.mem_cons, ih]
      tauto
    · rw [insertDesc, if_neg h]
      simp only [List.mem_cons]

/-- Insertion preserves descending order. -/
theorem insertDesc_sorted {x : ServiceImpactReport} :
    ∀ {l : List ServiceImpactReport},
      l.Pairwise (fun a b => b.incident_count ≤ a.incident_count) →
      (insertDesc x l).Pairwise (fun a b => b.incident_count ≤ a.incident_count) := by
  intro l
  induction l with
  | nil => intro _; simp [insertDesc]
  | cons y ys ih =>
    intro hp
    obtain ⟨hy, hys⟩ := List.pairwise_cons.mp hp
    by_cases h : x.incident_count ≤ y.incident_count
    · rw [insertDesc, if_pos h]
      refine List.pairwise_cons.mpr ⟨?_, ih hys⟩
      intro b hb
      rcases mem_insertDesc.mp hb with rfl | hb
      · exact h
      · exact hy b hb
    · rw [insertDesc, if_neg h]
      refine List.pairwise_cons.mpr ⟨?_, hp⟩
      intro b hb
      rcases List.mem_cons.mp hb with rfl | hb
      · exact le_of_lt (lt_of_not_le h)
      · exact le_trans (hy b hb) (le_of_lt (lt_of_not_le h))

/-- Insertion into a descending list appends the new element after all
equal-count entries: per-count filters gain it at the end. -/
theorem insertDesc_filter {x : ServiceImpactReport} (c : Nat) :
    ∀ {l : List ServiceImpactReport},
      l.Pairwise (fun a b => b.incident_count ≤ a.incident_count) →
      (insertDesc x l).filter (fun r => r.incident_count = c)
        = if x.incident_count = c then
            l.filter (fun r => r.incident_count = c) ++ [x]
          else l.filter (fun r => r.incident_count = c) := by
  intro l
  induction l with
  | nil =>
    intro _
    by_cases hx : x.incident_count = c <;> simp [insertDesc, hx]
  | cons y ys ih =>
    intro hp
    obtain ⟨hy, hys⟩ := List.pairwise_cons.mp hp
    by_cases h : x.incident_count ≤ y.incident_count
    · rw [insertDesc, if_pos h]
      rw [List.filter_cons, List.filter_cons]
      by_cases hx : x.incident_count = c
      · rw [ih hys, if_pos hx]
        by_cases hyc : y.incident_count = c <;> simp [hyc, hx]
      · rw [ih hys, if_neg hx]
        by_cases hyc : y.incident_count = c <;> simp [hyc, hx]
    · rw [insertDesc, if_neg h]
      rw [List.filter_cons]
      by_cases hx : x.incident_count = c
      · have hnil : (y :: ys).filter (fun r => r.incident_count = c) = [] := by
          rw [List.filter_eq_nil_iff]
          intro a ha
          rcases List.mem_cons.mp ha with rfl | ha
          · simp only [decide_eq_true_eq]
            omega
          · have := hy a ha
            simp only [decide_eq_true_eq]
            omega
        rw [hnil]
        simp [hx]
      · simp [hx]

/-- The insertion fold sorts descending and preserves per-count filters in
order. -/
theorem stableSortDesc_aux :
    ∀ (l acc : List ServiceImpactReport),
      acc.Pairwise (fun a b => b.incident_count ≤ a.incident_count) →
      ((l.foldl (fun acc x => insertDesc x acc) acc).Pairwise
          (fun a b => b.incident_count ≤ a.incident_count)
        ∧ ∀ c : Nat, (l.foldl (fun acc x => insertDesc x acc) acc).filter
              (fun r => r.incident_count = c)
            = acc.filter (fun r => r.incident_count = c)
              ++ l.filter (fun r => r.incident_count = c)) := by
  intro l
  induction l with
  | nil => intro acc h; exact ⟨h, by simp⟩
  | cons x t ih =>
    intro acc h
    rw [List.foldl_cons]
    obtain ⟨hs, hf⟩ := ih (insertDesc x acc) (insertDesc_sorted h)
    refine ⟨hs, fun c => ?_⟩
    rw [hf c, insertDesc_filter c h, List.filter_cons]
    by_cases hx : x.incident_count = c
    · simp [hx]
    · simp [hx]

/-- `stableSortDesc` sorts descending by incident count. -/
theorem stableSortDesc_sorted (l : List ServiceImpactReport) :
    (stableSortDesc l).Pairwise (fun a b => b.incident_count ≤ a.incident_count) :=
  (stableSortDesc_aux l [] (by simp)).1

/-- `stableSortDesc` is stable: entries of each fixed count keep their
input order. -/
theorem stableSortDesc_filter (l : List ServiceImpactReport) (c : Nat) :
    (stableSortDesc l).filter (fun r => r.incident_count = c)
      = l.filter (fun r => r.incident_count = c) := by
  have := (stableSortDesc_aux l [] (by simp)).2 c
  simpa [stableSortDesc] using this

/-- C8: in every generated report, `impacted_services` is the stable
descending sort of the per-group reports: it is sorted by incident count
descending, and entries of equal count keep the order in which their
groups were created during grouping (the order of `pre_sort_reports`). -/
theorem c8_sorted_stable (env : ReportEnv) (now : Int) (days : Nat) :
    (generate_report env now days).impacted_services
        = stableSortDesc (pre_sort_reports env now days)
    ∧ ((generate_report env now days).impacted_services).Pairwise
        (fun a b => b.incident_count ≤ a.incident_count)
    ∧ ∀ c : Nat, ((generate_report env now days).impacted_services).filter
          (fun r => r.incident_count = c)
        = (pre_sort_reports env now days).filter (fun r => r.incident_count = c) :=
  ⟨rfl, stableSortDesc_sorted _, fun c => stableSortDesc_filter _ c⟩

/-! ## C3 -/

/-- Membership characterization of the scorecard-tag scan: a tag is
selected iff some listed scorecard carries it and matches some target,
where the tag test is a case-sensitive substring match and the name test a
case-insensitive one. -/
theorem mem_selected_scorecard_tags (scorecards : List RawScorecardMeta)
    (targets : List (Str × Str)) (t : Str) :
    t ∈ selected_scorecard_tags scorecards targets ↔
      ∃ sc ∈ scorecards, sc.tag.getD [] = t ∧
        ∃ tg ∈ targets, (containsStr (sc.tag.getD []) tg.1 = true ∨
          containsStr (pyLower (sc.name.getD [])) (pyLower tg.2) = true) := by
  have aux : ∀ (scs : List RawScorecardMeta) (acc : List Str),
      t ∈ scs.foldl (fun acc sc =>
          if targets.any (fun tg =>
              containsStr (sc.tag.getD []) tg.1 ||
              containsStr (pyLower (sc.name.getD [])) (pyLower tg.2)) then
            acc ++ [sc.tag.getD []]
          else acc) acc ↔
        (t ∈ acc ∨ ∃ sc ∈ scs, sc.tag.getD [] = t ∧
          ∃ tg ∈ targets, (containsStr (sc.tag.getD []) tg.1 = true ∨
            containsStr (pyLower (sc.name.getD [])) (pyLower tg.2) = true)) := by
    intro scs
    induction scs with
    | nil => intro acc; simp
    | cons sc rest ih =>
      intro acc
      rw [List.foldl_cons]
      by_cases hc : (targets.any (fun tg =>
          containsStr (sc.tag.getD []) tg.1 ||
          containsStr (pyLower (sc.name.getD [])) (pyLower tg.2))) = true
      · rw [if_pos hc, ih]
        have hex : ∃ tg ∈ targets, (containsStr (sc.tag.getD []) tg.1 = true ∨
            containsStr (pyLower (sc.name.getD [])) (pyLower tg.2) = true) := by
          obtain ⟨tg, htg, hor⟩ := List.any_eq_true.mp hc
          exact ⟨tg, htg, by simpa using hor⟩
        constructor
        · rintro (hacc | hrest)
          · rcases List.mem_append.mp hacc with h | h
            · exact Or.inl h
            · exact Or.inr ⟨sc, List.mem_cons_self _ _,
                (List.mem_singleton.mp h).symm, hex⟩
          · obtain ⟨sc', hsc', ht, htg⟩ := hrest
            exact Or.inr ⟨sc', List.mem_cons_of_mem _ hsc', ht, htg⟩
        · rintro (hacc | ⟨sc', hsc', ht, htg⟩)
          · exact Or.inl (List.mem_append_left _ hacc)
          · rcases List.mem_cons.mp hsc' with rfl | hsc'
            · exact Or.inl (List.mem_append_right _ (by simpa using ht.symm))
            · exact Or.inr ⟨sc', hsc', ht, htg⟩
      · rw [if_neg hc, ih]
        constructor
        · rintro (hacc | hrest)
          · exact Or.inl hacc
          · obtain ⟨sc', hsc', ht, htg⟩ := hrest
            exact Or.inr ⟨sc', List.mem_cons_of_mem _ hsc', ht, htg⟩
        · rintro (hacc | ⟨sc', hsc', ht, htg⟩)
          · exact Or.inl hacc
          · rcases List.mem_cons.mp hsc' with rfl | hsc'
            · obtain ⟨tg, htgm, hor⟩ := htg
              exact absurd (List.any_eq_true.mpr ⟨tg, htgm, by simpa using hor⟩) hc
            · exact Or.inr ⟨sc', hsc', ht, htg⟩
  have := aux scorecards []
  simpa [selected_scorecard_tags] using this

/-- An empty selected-tag set short-circuits the by-names fetch. -/
theorem by_names_empty (env : CortexEnv) (names : List Str)
    (h : selected_scorecard_tags env.all_scorecards env.targets = []) :
    get_service_scorecards_by_names env names none = [] := by
  unfold get_service_scorecards_by_names
  simp [h]

/-- C3 (amended): without explicitly supplied tags, a scorecard is kept iff
some configured target identifier is a substring of its tag under
case-SENSITIVE comparison, or some configured target name is a substring of
its name under case-insensitive comparison; and when no scorecard is kept,
the aggregate resolution returns the empty mapping.  (The claim's
case-insensitive reading of the tag test fails on the code: the tag
containment does not lowercase.) -/
theorem c3_target_scorecard_selection (scorecards : List RawScorecardMeta)
    (targets : List (Str × Str)) (env : CortexEnv) (names : List Str) :
    (∀ t : Str, t ∈ selected_scorecard_tags scorecards targets ↔
      ∃ sc ∈ scorecards, sc.tag.getD [] = t ∧
        ∃ tg ∈ targets, (containsStr (sc.tag.getD []) tg.1 = true ∨
          containsStr (pyLower (sc.name.getD [])) (pyLower tg.2) = true))
    ∧ (selected_scorecard_tags env.all_scorecards env.targets = [] →
        get_target_scorecards_for_services env names = []) := by
  refine ⟨fun t => mem_selected_scorecard_tags scorecards targets t, fun h => ?_⟩
  unfold get_target_scorecards_for_services
  rw [by_names_empty env names h]
  rfl

/-- C3 counterexample: a target id `"ABC"` matches the tag `"abc-board"`
case-insensitively (so the claim as stated keeps the scorecard), but the
code's case-sensitive tag test keeps nothing. -/
theorem c3_counterexample :
    keep_scorecard_claimed [("ABC".data, "zzz".data)] scA = true
    ∧ selected_scorecard_tags [scA] [("ABC".data, "zzz".data)] = [] := by
  constructor
  · decide
  · decide

/-- Witness for C3 (amended) at concrete inputs. -/
theorem c3_witness :
    get_target_scorecards_for_services emptyCortexEnv [("x".data)] = [] :=
  (c3_target_scorecard_selection [] [] emptyCortexEnv [("x".data)]).2 rfl

/-! ## C6 -/

/-- C6: `get_service_scorecard` yields absent (`ok none`) on a 404 from
either round trip and when no score entry carries the requested service
tag, and re-raises every other non-2xx status as an error. -/
theorem c6_scorecard_404_handling (st sc : Str) :
    (∀ resp2 : HttpResult ScoresPayload,
      get_service_scorecard (.err 404) resp2 st sc = .ok none)
    ∧ (∀ defP : ScorecardDefPayload,
      get_service_scorecard (.ok defP) (.err 404) st sc = .ok none)
    ∧ (∀ (defP : ScorecardDefPayload) (sp : ScoresPayload),
      (∀ ss ∈ sp.serviceScores, ss.service_tag ≠ some st) →
      get_service_scorecard (.ok defP) (.ok sp) st sc = .ok none)
    ∧ (∀ code : Nat, code ≠ 404 →
      (∀ resp2 : HttpResult ScoresPayload,
        get_service_scorecard (.err code) resp2 st sc = .error code)
      ∧ (∀ defP : ScorecardDefPayload,
        get_service_scorecard (.ok defP) (.err code) st sc = .error code)) := by
  refine ⟨?_, ?_, ?_, ?_⟩
  · intro resp2
    simp [get_service_scorecard]
  · intro defP
    simp [get_service_scorecard]
  · intro defP sp h
    have hf : sp.serviceScores.find? (fun ss => ss.service_tag == some st) = none := by
      rw [List.find?_eq_none]
      intro ss hss
      simpa using h ss hss
    simp [get_service_scorecard, hf]
  · intro code hcode
    constructor
    · intro resp2
      simp [get_service_scorecard, hcode]
    · intro defP
      simp [get_service_scorecard, hcode]

/-- Witness for C6 at concrete responses. -/
theorem c6_witness :
    get_service_scorecard (.err 500) (.err 404) ("a".data) ("b".data) = .error 500
    ∧ get_service_scorecard (.ok {}) (.ok {}) ("a".data) ("b".data) = .ok none
    ∧ get_service_scorecard (.err 404) (.ok {}) ("a".data) ("b".data) = .ok none := by
  refine ⟨((c6_scorecard_404_handling ("a".data) ("b".data)).2.2.2 500
      (by decide)).1 (.err 404), ?_, ?_⟩
  · exact (c6_scorecard_404_handling ("a".data) ("b".data)).2.2.1 {} {}
      (by intro ss hss; exact absurd hss (by simp))
  · exact (c6_scorecard_404_handling ("a".data) ("b".data)).1 (.ok {})

/-! ## C4 -/

/-- The id, services, and visibility of a parsed incident do not depend on
the clock. -/
theorem parse_incident_coreEq (fieldId : Str) (now now' : Int) (r : RawIncident) :
    coreEq (parse_incident fieldId now r) (parse_incident fieldId now' r) :=
  ⟨rfl, rfl, rfl⟩

/-- Parsed incident lists under two clocks are pointwise core-equal. -/
theorem get_incidents_rel (fieldId : Str) (now now' : Int)
    (entries : List RawIncidentEntry) :
    List.Forall₂ coreEq (get_incidents fieldId now entries)
      (get_incidents fieldId now' entries) := by
  rw [get_incidents_eq, get_incidents_eq]
  induction entries with
  | nil => constructor
  | cons e t ih =>
    cases e with
    | malformed => simpa [parse_entry] using ih
    | well r =>
      rw [List.filterMap_cons, List.filterMap_cons]
      exact List.Forall₂.cons (parse_incident_coreEq fieldId now now' r) ih

/-- The public filter preserves pointwise core equality. -/
theorem filter_public_rel {l l' : List Incident} (h : List.Forall₂ coreEq l l') :
    List.Forall₂ coreEq (l.filter (fun i => i.visibility == "public".data))
      (l'.filter (fun i => i.visibility == "public".data)) := by
  induction h with
  | nil => constructor
  | @cons i j t t' hij hrest ih =>
    obtain ⟨hid, hsv, hvis⟩ := id hij
    rw [List.filter_cons, List.filter_cons]
    by_cases hp : (i.visibility == "public".data) = true
    · rw [if_pos hp, if_pos (by rw [← hvis]; exact hp)]
      exact List.Forall₂.cons hij ih
    · rw [if_neg hp, if_neg (by rw [← hvis]; exact hp)]
      exact ih

/-- Core-equal incident lists yield the same affected-service name lists. -/
theorem flatMap_names_eq {l l' : List Incident} (h : List.Forall₂ coreEq l l') :
    l.flatMap (fun i => i.services.map (fun sv => sv.name))
      = l'.flatMap (fun i => i.services.map (fun sv => sv.name)) := by
  induction h with
  | nil => rfl
  | @cons i j t t' hij hrest ih =>
    obtain ⟨_, hsv, _⟩ := hij
    rw [List.flatMap_cons, List.flatMap_cons, hsv, ih]

/-- Core-equal incident lists yield the same id lists. -/
theorem map_ids_eq {l l' : List Incident} (h : List.Forall₂ coreEq l l') :
    l.map (fun i => i.id) = l'.map (fun i => i.id) := by
  induction h with
  | nil => rfl
  | @cons i j t t' hij hrest ih =>
    obtain ⟨hid, _, _⟩ := hij
    rw [List.map_cons, List.map_cons, hid, ih]

/-- Related group maps agree on key membership tests. -/
theorem keys_any_eq {m m' : List (Str × List Incident)}
    (h : List.Forall₂ (fun p q => p.1 = q.1 ∧ List.Forall₂ coreEq p.2 q.2) m m')
    (nm : Str) :
    (m.any (fun p => p.1 == nm)) = (m'.any (fun p => p.1 == nm)) := by
  induction h with
  | nil => rfl
  | @cons p q t t' hpq hrest ih =>
    rw [List.any_cons, List.any_cons, hpq.1, ih]

/-- Updating related group maps with core-equal incidents keeps them
related. -/
theorem map_update_rel (nm : Str) {i i' : Incident} (hii : coreEq i i') :
    ∀ {m m' : List (Str × List Incident)},
      List.Forall₂ (fun p q => p.1 = q.1 ∧ List.Forall₂ coreEq p.2 q.2) m m' →
      List.Forall₂ (fun p q => p.1 = q.1 ∧ List.Forall₂ coreEq p.2 q.2)
        (m.map (fun p => if p.1 == nm then (p.1, p.2 ++ [i]) else p))
        (m'.map (fun p => if p.1 == nm then (p.1, p.2 ++ [i']) else p)) := by
  intro m m' h
  induction h with
  | nil => constructor
  | @cons p q t t' hpq hrest ih =>
    rw [List.map_cons, List.map_cons]
    refine List.Forall₂.cons ?_ ih
    by_cases hpe : (p.1 == nm) = true
    · rw [if_pos hpe, if_pos (by rw [← hpq.1]; exact hpe)]
      exact ⟨hpq.1, List.rel_append hpq.2 (List.Forall₂.cons hii List.Forall₂.nil)⟩
    · rw [if_neg hpe, if_neg (by rw [← hpq.1]; exact hpe)]
      exact hpq

/-- One grouping append preserves relatedness of group maps. -/
theorem add_to_group_rel {m m' : List (Str × List Incident)}
    (h : List.Forall₂ (fun p q => p.1 = q.1 ∧ List.Forall₂ coreEq p.2 q.2) m m')
    {i i' : Incident} (hii : coreEq i i') (nm : Str) :
    List.Forall₂ (fun p q => p.1 = q.1 ∧ List.Forall₂ coreEq p.2 q.2)
      (add_to_group m nm i) (add_to_group m' nm i') := by
  unfold add_to_group
  rw [← keys_any_eq h nm]
  by_cases hk : (m.any (fun p => p.1 == nm)) = true
  · rw [if_pos hk, if_pos hk]
    exact map_update_rel nm hii h
  · rw [if_neg hk, if_neg hk]
    exact List.rel_append h
      (List.Forall₂.cons ⟨rfl, List.Forall₂.cons hii List.Forall₂.nil⟩ List.Forall₂.nil)

/-- Folding one incident's services preserves relatedness. -/
theorem add_incident_rel {m m' : List (Str × List Incident)}
    (h : List.Forall₂ (fun p q => p.1 = q.1 ∧ List.Forall₂ coreEq p.2 q.2) m m')
    {i i' : Incident} (hii : coreEq i i') :
    List.Forall₂ (fun p q => p.1 = q.1 ∧ List.Forall₂ coreEq p.2 q.2)
      (add_incident m i) (add_incident m' i') := by
  unfold add_incident
  rw [show i'.services = i.services from hii.2.1.symm]
  revert m m'
  induction i.services with
  | nil => intro m m' h; exact h
  | cons sv t ih =>
    intro m m' h
    rw [List.foldl_cons, List.foldl_cons]
    exact ih (add_to_group_rel h hii sv.name)

/-- Grouping core-equal incident lists yields related group maps. -/
theorem group_incidents_rel {l l' : List Incident}
    (h : List.Forall₂ coreEq l l') :
    List.Forall₂ (fun p q => p.1 = q.1 ∧ List.Forall₂ coreEq p.2 q.2)
      (group_incidents_by_service l) (group_incidents_by_service l') := by
  unfold group_incidents_by_service
  have aux : ∀ {t t' : List Incident}, List.Forall₂ coreEq t t' →
      ∀ {m m' : List (Str × List Incident)},
      List.Forall₂ (fun p q => p.1 = q.1 ∧ List.Forall₂ coreEq p.2 q.2) m m' →
      List.Forall₂ (fun p q => p.1 = q.1 ∧ List.Forall₂ coreEq p.2 q.2)
        (t.foldl add_incident m) (t'.foldl add_incident m') := by
    intro t t' ht
    induction ht with
    | nil => intro m m' hm; exact hm
    | @cons i j u u' hij hrest ih =>
      intro m m' hm
      rw [List.foldl_cons, List.foldl_cons]
      exact ih (add_incident_rel hm hij)
  exact aux h List.Forall₂.nil

/-- Related group maps produce identical service impact reports. -/
theorem build_reports_congr (scMap : List (Str × List ServiceScorecard))
    {g g' : List (Str × List Incident)}
    (h : List.Forall₂ (fun p q => p.1 = q.1 ∧ List.Forall₂ coreEq p.2 q.2) g g') :
    build_service_reports scMap g = build_service_reports scMap g' := by
  unfold build_service_reports
  induction h with
  | nil => rfl
  | @cons p q t t' hpq hrest ih =>
    rw [List.map_cons, List.map_cons, ih]
    obtain ⟨hk, hv⟩ := hpq
    have hlen := hv.length_eq
    have hids := map_ids_eq hv
    cases p with
    | mk k vlist =>
      cases q with
      | mk k' vlist' =>
        simp only at hk hv hlen hids
        subst hk
        simp only [hlen, hids]

/-- The public-incident lists of two runs over the same frozen payload are
pointwise core-equal. -/
theorem public_incidents_rel (fieldId : Str) (now now' : Int) (days : Nat)
    (entries : List RawIncidentEntry) :
    List.Forall₂ coreEq (get_public_incidents_last_n_days fieldId now days entries)
      (get_public_incidents_last_n_days fieldId now' days entries) := by
  unfold get_public_incidents_last_n_days
  exact filter_public_rel (get_incidents_rel fieldId now now' entries)

/-- The unsorted per-service reports do not depend on the clock. -/
theorem pre_sort_reports_congr (env : ReportEnv) (now now' : Int) (days : Nat) :
    pre_sort_reports env now days = pre_sort_reports env now' days := by
  have hrel := public_incidents_rel env.fieldId now now' days env.incident_entries
  show build_service_reports
      (get_target_scorecards_for_services env.cortex
        (impacted_service_names
          (get_public_incidents_last_n_days env.fieldId now days env.incident_entries)))
      (group_incidents_by_service
        (get_public_incidents_last_n_days env.fieldId now days env.incident_entries))
    = build_service_reports
      (get_target_scorecards_for_services env.cortex
        (impacted_service_names
          (get_public_incidents_last_n_days env.fieldId now' days env.incident_entries)))
      (group_incidents_by_service
        (get_public_incidents_last_n_days env.fieldId now' days env.incident_entries))
  have hnames :
      impacted_service_names
          (get_public_incidents_last_n_days env.fieldId now days env.incident_entries)
        = impacted_service_names
          (get_public_incidents_last_n_days env.fieldId now' days env.incident_entries) := by
    unfold impacted_service_names
    rw [flatMap_names_eq hrel]
  rw [hnames]
  exact build_reports_congr _ (group_incidents_rel hrel)

/-- C4 (amended): for identical frozen API responses, two invocations of
`generate_report` agree on `total_incidents` and on the entire
`impacted_services` list; only the clock-derived fields
(`report_generated_at`, `period_start`, `period_end`) can differ. -/
theorem c4_deterministic_modulo_clock (env : ReportEnv) (now now' : Int) (days : Nat) :
    (generate_report env now days).total_incidents
        = (generate_report env now' days).total_incidents
    ∧ (generate_report env now days).impacted_services
        = (generate_report env now' days).impacted_services := by
  constructor
  · show (get_public_incidents_last_n_days env.fieldId now days env.incident_entries).length
        = (get_public_incidents_last_n_days env.fieldId now' days env.incident_entries).length
    exact (public_incidents_rel env.fieldId now now' days env.incident_entries).length_eq
  · show stableSortDesc (pre_sort_reports env now days)
        = stableSortDesc (pre_sort_reports env now' days)
    rw [pre_sort_reports_congr env now now' days]

/-- C4 counterexample: two consecutive invocations over the same frozen
(empty) responses disagree on `period_end`, which the claim requires to be
equal: the period bounds are read from the clock at each invocation. -/
theorem c4_counterexample :
    (generate_report env0 0 30).period_end ≠ (generate_report env0 1 30).period_end := by
  decide
